import Mathlib

/-!
Verification of the AI-Voice-Translator core against its natural-language
specification.

The development shallowly embeds the relevant parts of the TypeScript source:

* the server-side translation route (`src/app/api/translate/route.ts` and the
  reasoning-filter revision of the same route), modelled as pure functions
  from the upstream model's content deltas to the list of emitted
  server-sent events;
* the client-side translation stream reader (`translateText` in the unnamed
  client library file), modelled as a fold over the parsed event list that
  collects the partial-callback values and the final resolved string;
* the audio hook (`src/hooks/use-audio.ts`, the listening/pre-buffer
  revision): the silence detector, the pre-buffer ring, clip assembly,
  `startListening` and `stopListening`, modelled as explicit state machines;
* the page controller (`processAudio` in `src/app/page.tsx`) together with
  the quality-rejection branch of the speech route
  (`src/app/api/speech/route.ts`).

Machine floats that only flow through comparisons are modelled as `Rat`;
byte sizes and times are `Nat`; loudness (dB) samples are `Int` inputs.
-/

namespace VoiceTranslator

/-! ## String helpers: JavaScript `includes`, `trim`, and the punctuation regex -/

/-- `isPrefixCh pat l` decides whether the char list `pat` is a prefix of `l`. -/
def isPrefixCh : List Char → List Char → Bool
  | [], _ => true
  | _ :: _, [] => false
  | a :: as, b :: bs => a = b && isPrefixCh as bs

/-- `containsCh hay pat` decides whether `pat` occurs contiguously inside
`hay` — the embedding of JavaScript `hay.includes(pat)` on char lists. -/
def containsCh : List Char → List Char → Bool
  | [], pat => pat.isEmpty
  | h :: t, pat => isPrefixCh pat (h :: t) || containsCh t pat

/-- JavaScript `s.includes(pat)`. -/
def strIncludes (s pat : String) : Bool :=
  containsCh s.toList pat.toList

/-- The whitespace characters stripped by JavaScript `String.prototype.trim`
(restricted to the ASCII ones; the claims only exercise these). -/
def isJsWhitespace (c : Char) : Bool :=
  c = ' ' || c = '\t' || c = '\n' || c = '\r' || c = '\x0b' || c = '\x0c'

/-- JavaScript `s.trim()`: drop whitespace from both ends. -/
def jsTrim (s : String) : String :=
  ⟨(((s.toList.dropWhile isJsWhitespace).reverse.dropWhile isJsWhitespace).reverse)⟩

/-- The test `/^[.,!?]+$/.test(s)`: `s` is nonempty and consists solely of
the characters `.`, `,`, `!`, `?`. -/
def punctOnly (s : String) : Bool :=
  !s.toList.isEmpty && s.toList.all (fun c => c = '.' || c = ',' || c = '!' || c = '?')

/-! ## Translation event stream

One parsed server-sent event of the translation response body.  `content`
carries incremental text, `metrics` carries latency numbers (their values are
irrelevant to the claims), `done` is the `[DONE]` terminal sentinel, and
`malformed` stands for a `data:` line whose JSON fails to parse. -/

inductive SSEvent where
  | content (s : String)
  | metrics
  | done
  | malformed
  deriving DecidableEq, Repr

/-! ### Server side: the reasoning-filter revision of the translate route

Embedding of the `ReadableStream start` body of the `deepseek-r1` revision of
the translate route (the revision with `isThinkingPhase`): each upstream
delta is dropped while inside a `<think> … </think>` region, surviving text
is accumulated, and the accumulated text is emitted as a single content
event only after the upstream stream ends, followed by a final metrics event
and the `[DONE]` sentinel.  A metrics event is also emitted together with
the first nonempty delta. -/

structure FilterState where
  sentFirstMetrics : Bool
  acc : String
  thinking : Bool
  thinkingContent : String
  deriving Repr

def FilterState.init : FilterState :=
  { sentFirstMetrics := false, acc := "", thinking := false, thinkingContent := "" }

/-- Process one upstream content delta; returns the new state and the events
enqueued while processing it (the first-token metrics event, when due). -/
def filterStep (st : FilterState) (delta : String) : FilterState × List SSEvent :=
  if delta = "" then (st, [])
  else
    let (st, evs) :=
      if st.sentFirstMetrics then (st, ([] : List SSEvent))
      else ({ st with sentFirstMetrics := true }, [SSEvent.metrics])
    if strIncludes delta "<think>" then ({ st with thinking := true }, evs)
    else if st.thinking then
      if strIncludes delta "</think>" then
        ({ st with thinking := false, thinkingContent := "" }, evs)
      else ({ st with thinkingContent := st.thinkingContent ++ delta }, evs)
    else ({ st with acc := st.acc ++ delta }, evs)

def filterRun : FilterState → List String → FilterState × List SSEvent
  | st, [] => (st, [])
  | st, d :: ds =>
    let (st', evs) := filterStep st d
    let (stF, evsRest) := filterRun st' ds
    (stF, evs ++ evsRest)

/-- The full event list the filtering route revision writes to its response
body for a given upstream delta sequence. -/
def serverFilterEmit (deltas : List String) : List SSEvent :=
  let (st, evs) := filterRun FilterState.init deltas
  evs ++ (if st.acc = "" then [] else [SSEvent.content st.acc])
      ++ [SSEvent.metrics, SSEvent.done]

/-! ### Client side: the translation stream reader

Embedding of `translateText` in the client library file: every event with a
nonempty `content` field extends the accumulator and fires the `onPartial`
callback with the new accumulator value; `[DONE]` returns the accumulator
immediately; when the body ends without `[DONE]` the accumulated string is
returned after the loop.  The result pairs the list of partial-callback
arguments, in order, with the resolved final string. -/

def clientReadGo (acc : String) (partials : List String) :
    List SSEvent → List String × String
  | [] => (partials, acc)
  | SSEvent.done :: _ => (partials, acc)
  | SSEvent.content s :: rest =>
    if s = "" then clientReadGo acc partials rest
    else clientReadGo (acc ++ s) (partials ++ [acc ++ s]) rest
  | SSEvent.metrics :: rest => clientReadGo acc partials rest
  | SSEvent.malformed :: rest => clientReadGo acc partials rest

def clientRead (evs : List SSEvent) : List String × String :=
  clientReadGo "" [] evs

/-- The partial-callback values observed by the caller. -/
def clientPartials (evs : List SSEvent) : List String := (clientRead evs).1

/-- The final string the reader resolves with. -/
def clientFinal (evs : List SSEvent) : String := (clientRead evs).2

/-- The composed pipeline: upstream model deltas through the server-side
reasoning filter, whose response events are consumed by the client reader. -/
def translationPipeline (deltas : List String) : List String × String :=
  clientRead (serverFilterEmit deltas)

/-- The concatenation of all content payloads of an event list — the text
"accumulated so far" when a stream ends. -/
def accumContents : List SSEvent → String
  | [] => ""
  | SSEvent.content s :: rest => s ++ accumContents rest
  | _ :: rest => accumContents rest

/-! ## The translate route's input guards -/

structure Language where
  code : String
  name : String
  deriving DecidableEq, Repr

/-- Outcome of a POST to the translate endpoint: either an early error
response (the external model is never contacted) or the event-stream
response, whose construction is the sole place the model call happens. -/
inductive TranslateResponse where
  | errorResponse (status : Nat) (msg : String)
  | eventStream
  deriving DecidableEq, Repr

/-- `!text || !languages || languages.length !== 2` — note JavaScript
treats an empty string as falsy. -/
def translateGuard1 (text : Option String) (languages : Option (List Language)) : Bool :=
  (match text with | none => true | some t => t = "") ||
  (match languages with | none => true | some ls => ls.length ≠ 2)

/-- `cleanText.length < 2 || /^[.,!?]+$/.test(cleanText)` on the trimmed text. -/
def translateGuard2 (t : String) : Bool :=
  decide ((jsTrim t).length < 2) || punctOnly (jsTrim t)

/-- Embedding of the translate route's `POST` handler up to the decision of
whether the external translation model is contacted. -/
def translatePOST (text : Option String) (languages : Option (List Language)) :
    TranslateResponse :=
  if translateGuard1 text languages then
    TranslateResponse.errorResponse 400 "Missing required fields or invalid languages array"
  else if translateGuard2 (text.getD "") then
    TranslateResponse.errorResponse 400 "Text too short or meaningless"
  else TranslateResponse.eventStream

def isError400 : TranslateResponse → Bool
  | TranslateResponse.errorResponse 400 _ => true
  | _ => false

/-! ## Theorems about the translation stream -/

/-- Helper for C8: the reader's resolved value is the initial accumulator
followed by every content payload, for any event list without the terminal
sentinel. -/
theorem clientReadGo_no_done (evs : List SSEvent) (h : SSEvent.done ∉ evs) :
    ∀ acc partials, (clientReadGo acc partials evs).2 = acc ++ accumContents evs := by
  induction evs with
  | nil => intro acc partials; simp [clientReadGo, accumContents]
  | cons e rest ih =>
    intro acc partials
    have hrest : SSEvent.done ∉ rest := fun hr => h (List.mem_cons_of_mem _ hr)
    cases e with
    | done => exact absurd (List.mem_cons_self _ _) h
    | content s =>
      by_cases hs : s = ""
      · subst hs
        simp [clientReadGo, accumContents, ih hrest]
      · simp only [clientReadGo, accumContents, if_neg hs, ih hrest]
        simp [String.append_assoc]
    | metrics => simp [clientReadGo, accumContents, ih hrest]
    | malformed => simp [clientReadGo, accumContents, ih hrest]

/-- C1 (counterexample): fed the content events
`["Hel", "lo", "<think>", "ignored", "</think>", " world"]` and `[DONE]`,
the partial-result callback is NOT invoked with `"Hel"`, `"Hello"`,
`"Hello world"`: through the reasoning-filtering route the filtered text is
emitted as one batched content event (a single partial, `"Hello world"`),
and the reader alone, fed those events directly, leaks the think-region
text into its partials. -/
theorem translation_callback_seq_not_as_claimed :
    (translationPipeline ["Hel", "lo", "<think>", "ignored", "</think>", " world"]).1
        ≠ ["Hel", "Hello", "Hello world"]
    ∧ clientPartials [SSEvent.content "Hel", SSEvent.content "lo", SSEvent.content "<think>",
        SSEvent.content "ignored", SSEvent.content "</think>", SSEvent.content " world",
        SSEvent.done] ≠ ["Hel", "Hello", "Hello world"] := by
  constructor
  · intro h
    have := congrArg List.length h
    simp [translationPipeline, serverFilterEmit, filterRun, filterStep, FilterState.init,
      clientRead, clientReadGo, strIncludes, containsCh, isPrefixCh] at this
  · intro h
    have := congrArg List.length h
    simp [clientPartials, clientRead, clientReadGo] at this

/-- C1 (amended): through the reasoning-filter route composed with the
stream reader, that delta sequence produces exactly one partial callback,
`"Hello world"`; no text from between the `<think>` markers appears in the
partial or in the resolved value; and the reader resolves with
`"Hello world"`. -/
theorem translation_pipeline_filters_thinking :
    translationPipeline ["Hel", "lo", "<think>", "ignored", "</think>", " world"]
        = (["Hello world"], "Hello world")
    ∧ strIncludes "Hello world" "ignored" = false
    ∧ strIncludes "Hello world" "<think>" = false := by
  refine ⟨?_, by decide, by decide⟩
  rfl

/-- C8: if the event stream ends without a `[DONE]` terminal sentinel, the
reader still resolves — with exactly the text accumulated so far (the
concatenation of all content payloads), rather than hanging or rejecting. -/
theorem reader_resolves_without_done (evs : List SSEvent) (h : SSEvent.done ∉ evs) :
    clientFinal evs = accumContents evs := by
  have := clientReadGo_no_done evs h "" []
  simpa [clientFinal, clientRead] using this

/-- Witness for C8 at a concrete sentinel-less stream. -/
theorem reader_resolves_without_done_witness :
    SSEvent.done ∉ [SSEvent.content "Hel", SSEvent.metrics, SSEvent.content "lo"]
    ∧ clientFinal [SSEvent.content "Hel", SSEvent.metrics, SSEvent.content "lo"]
        = accumContents [SSEvent.content "Hel", SSEvent.metrics, SSEvent.content "lo"] :=
  ⟨by decide, reader_resolves_without_done _ (by decide)⟩

/-- C10: any POST to the translate endpoint whose text, after trimming, has
fewer than 2 characters or consists solely of the characters `. , ! ?`
receives a 400 error response, and the event-stream response (the only path
that contacts the external model) is never produced. -/
theorem translate_rejects_short_or_punct (t : String) (langs : Option (List Language))
    (h : (jsTrim t).length < 2 ∨ punctOnly (jsTrim t) = true) :
    isError400 (translatePOST (some t) langs) = true
    ∧ translatePOST (some t) langs ≠ TranslateResponse.eventStream := by
  have hg : translateGuard2 t = true := by
    rcases h with h | h <;> simp [translateGuard2, h]
  unfold translatePOST
  by_cases h1 : translateGuard1 (some t) langs
  · simp [h1, isError400]
  · simp [h1, hg, isError400]

/-- Witness for C10 at the punctuation-only text `"!!"`. -/
theorem translate_rejects_short_or_punct_witness :
    ((jsTrim "!!").length < 2 ∨ punctOnly (jsTrim "!!") = true)
    ∧ isError400 (translatePOST (some "!!") (some [⟨"en", "English"⟩, ⟨"ko", "Korean"⟩])) = true
    ∧ translatePOST (some "!!") (some [⟨"en", "English"⟩, ⟨"ko", "Korean"⟩])
        ≠ TranslateResponse.eventStream :=
  ⟨Or.inr (by decide),
   (translate_rejects_short_or_punct "!!" (some [⟨"en", "English"⟩, ⟨"ko", "Korean"⟩])
      (Or.inr (by decide))).1,
   (translate_rejects_short_or_punct "!!" (some [⟨"en", "English"⟩, ⟨"ko", "Korean"⟩])
      (Or.inr (by decide))).2⟩

/-! ## The silence detector (`detectSilence` in the audio hook)

`detectSilence` is polled at animation-frame rate.  Its embedding is a step
function on an explicit state: `timerHandleSet` models
`silenceTimeoutRef.current !== null` (the source callback does not null the
ref when the timer fires — the ref is cleared by `clearTimeout` on a loud
sample or by `cleanup`), `timerDeadline` the pending timeout's absolute
expiry, and `stops` the times at which a silence-stop
(`recordingStopRef.current()`) fired.  The one-shot timer callback runs, at
its deadline, before any later-polled sample — modelled by firing any due
timer before each sample and once more at an end-of-trace horizon.
Loudness samples are the computed dB values, compared to
`silenceThreshold` exactly as in the source (`dB < silenceThreshold`). -/

structure DetectorState where
  isRecording : Bool
  isListening : Bool
  timerHandleSet : Bool
  timerDeadline : Option Nat
  stops : List Nat
  deriving DecidableEq, Repr

/-- Run the armed timeout's callback if its deadline has passed: the
callback stops the recorder only if still recording. -/
def fireTimerIfDue (now : Nat) (s : DetectorState) : DetectorState :=
  match s.timerDeadline with
  | none => s
  | some d =>
    if d ≤ now then
      if s.isRecording then
        { s with isRecording := false, timerDeadline := none, stops := s.stops ++ [d] }
      else { s with timerDeadline := none }
    else s

/-- One `detectSilence` invocation at time `now` with loudness `dB`. -/
def detectStep (th : Int) (timeout : Nat) (now : Nat) (dB : Int) (s : DetectorState) :
    DetectorState :=
  if !s.isListening then s
  else if dB < th then
    if !s.timerHandleSet && s.isRecording then
      { s with timerHandleSet := true, timerDeadline := some (now + timeout) }
    else s
  else
    let s1 :=
      if s.timerHandleSet then { s with timerHandleSet := false, timerDeadline := none } else s
    if !s1.isRecording && s1.isListening then { s1 with isRecording := true } else s1

def runDetector (th : Int) (timeout : Nat) : DetectorState → List (Nat × Int) → DetectorState
  | s, [] => s
  | s, (t, dB) :: rest => runDetector th timeout (detectStep th timeout t dB (fireTimerIfDue t s)) rest

/-- A whole observation: poll each sample in order, then let time advance to
the horizon `T` so an armed timer may expire. -/
def runWithHorizon (th : Int) (timeout : Nat) (s : DetectorState)
    (samples : List (Nat × Int)) (T : Nat) : DetectorState :=
  fireTimerIfDue T (runDetector th timeout s samples)

/-- The state while recording with no timer armed and no stop yet fired. -/
def recordingInit : DetectorState :=
  { isRecording := true, isListening := true, timerHandleSet := false,
    timerDeadline := none, stops := [] }

def armedSt (d : Nat) : DetectorState :=
  { isRecording := true, isListening := true, timerHandleSet := true,
    timerDeadline := some d, stops := [] }

def firedSt (d : Nat) : DetectorState :=
  { isRecording := false, isListening := true, timerHandleSet := true,
    timerDeadline := none, stops := [d] }

theorem runDetector_fired (th : Int) (timeout : Nat) (d : Nat) (rest : List (Nat × Int))
    (hrest : ∀ p ∈ rest, p.2 < th) :
    runDetector th timeout (firedSt d) rest = firedSt d := by
  induction rest with
  | nil => rfl
  | cons p rest ih =>
    obtain ⟨t, dB⟩ := p
    have hdB : dB < th := hrest (t, dB) (List.mem_cons_self _ _)
    have hrest' : ∀ p ∈ rest, p.2 < th := fun q hq => hrest q (List.mem_cons_of_mem _ hq)
    have hstep : detectStep th timeout t dB (fireTimerIfDue t (firedSt d)) = firedSt d := by
      simp [fireTimerIfDue, firedSt, detectStep, hdB]
    simpa [runDetector, hstep] using ih hrest'

theorem runDetector_armed (th : Int) (timeout : Nat) (d : Nat) (rest : List (Nat × Int))
    (hrest : ∀ p ∈ rest, p.2 < th) :
    runDetector th timeout (armedSt d) rest = armedSt d
    ∨ runDetector th timeout (armedSt d) rest = firedSt d := by
  induction rest with
  | nil => exact Or.inl rfl
  | cons p rest ih =>
    obtain ⟨t, dB⟩ := p
    have hdB : dB < th := hrest (t, dB) (List.mem_cons_self _ _)
    have hrest' : ∀ p ∈ rest, p.2 < th := fun q hq => hrest q (List.mem_cons_of_mem _ hq)
    by_cases hfire : d ≤ t
    · have hstep : detectStep th timeout t dB (fireTimerIfDue t (armedSt d)) = firedSt d := by
        simp [fireTimerIfDue, armedSt, hfire, detectStep, firedSt, hdB]
      simp only [runDetector, hstep]
      exact Or.inr (runDetector_fired th timeout d rest hrest')
    · have hstep : detectStep th timeout t dB (fireTimerIfDue t (armedSt d)) = armedSt d := by
        simp [fireTimerIfDue, armedSt, hfire, detectStep, hdB]
      simpa [runDetector, hstep] using ih hrest'

/-- C3: while recording with no timer armed, a loudness sequence that drops
below `silenceThreshold` at time `t0` and stays below for the rest of the
observation (which extends at least `silenceTimeout` past `t0`) produces
exactly one silence-stop, fired at `t0 + timeout` — i.e. at (not before)
`silenceTimeout` elapsed from the sample that armed the timer.  Moreover,
as step facts: an invocation arms the timer only when listening and
recording with no timer handle set, on a strictly-below-threshold sample;
and a sample at or above threshold always leaves the timer cleared. -/
theorem silence_stop_exactly_once (th : Int) (timeout : Nat) (t0 : Nat) (d0 : Int)
    (rest : List (Nat × Int)) (T : Nat)
    (hd0 : d0 < th) (hrest : ∀ p ∈ rest, p.2 < th) (hT : t0 + timeout ≤ T) :
    (runWithHorizon th timeout recordingInit ((t0, d0) :: rest) T).stops = [t0 + timeout]
    ∧ (∀ (t : Nat) (dB : Int) (s : DetectorState),
        (detectStep th timeout t dB s).timerHandleSet = true → s.timerHandleSet = false →
          s.isListening = true ∧ s.isRecording = true ∧ dB < th)
    ∧ (∀ (t : Nat) (dB : Int) (s : DetectorState),
        s.isListening = true → th ≤ dB →
          (detectStep th timeout t dB s).timerHandleSet = false) := by
  refine ⟨?_, ?_, ?_⟩
  · have hfirst : detectStep th timeout t0 d0 (fireTimerIfDue t0 recordingInit)
        = armedSt (t0 + timeout) := by
      simp [fireTimerIfDue, recordingInit, detectStep, hd0, armedSt]
    have h1 : runDetector th timeout recordingInit ((t0, d0) :: rest)
        = runDetector th timeout (armedSt (t0 + timeout)) rest := by
      rw [show runDetector th timeout recordingInit ((t0, d0) :: rest)
          = runDetector th timeout
              (detectStep th timeout t0 d0 (fireTimerIfDue t0 recordingInit)) rest from rfl,
        hfirst]
    unfold runWithHorizon
    rw [h1]
    rcases runDetector_armed th timeout (t0 + timeout) rest hrest with hrun | hrun <;> rw [hrun]
    · simp [fireTimerIfDue, armedSt, hT]
    · simp [fireTimerIfDue, firedSt]
  · intro t dB s harm hwas
    cases hl : s.isListening with
    | false =>
      have hs : detectStep th timeout t dB s = s := by simp [detectStep, hl]
      rw [hs, hwas] at harm
      exact absurd harm (by simp)
    | true =>
      by_cases hq : dB < th
      · cases hr : s.isRecording with
        | true => exact ⟨rfl, rfl, hq⟩
        | false =>
          have hs : detectStep th timeout t dB s = s := by
            simp [detectStep, hl, hq, hr, hwas]
          rw [hs, hwas] at harm
          exact absurd harm (by simp)
      · have hs : (detectStep th timeout t dB s).timerHandleSet = false := by
          simp only [detectStep, hl, Bool.not_true, Bool.false_eq_true, if_false, if_neg hq, hwas,
            if_false]
          split <;> simp [hwas]
        rw [hs] at harm
        exact absurd harm (by simp)
  · intro t dB s hl hq
    have hq' : ¬dB < th := not_lt.mpr hq
    cases hset : s.timerHandleSet with
    | true =>
      simp only [detectStep, hl, Bool.not_true, Bool.false_eq_true, if_false, if_neg hq', hset,
        if_true]
      split <;> rfl
    | false =>
      simp only [detectStep, hl, Bool.not_true, Bool.false_eq_true, if_false, if_neg hq', hset,
        if_false]
      split <;> simp [hset]

/-- Witness for C3: threshold −58 dB, timeout 800 ms, samples at 0, 16, 33
and 900 ms all at −70 dB, horizon 1000 ms: exactly one silence-stop, at
800 ms. -/
theorem silence_stop_exactly_once_witness :
    ((-70 : Int) < -58 ∧ (∀ p ∈ [((16 : Nat), (-70 : Int)), (33, -70), (900, -70)], p.2 < -58)
      ∧ (0 : Nat) + 800 ≤ 1000)
    ∧ (runWithHorizon (-58) 800 recordingInit
        ((0, -70) :: [((16 : Nat), (-70 : Int)), (33, -70), (900, -70)]) 1000).stops
        = [0 + 800] := by
  refine ⟨⟨by decide, by decide, by decide⟩, ?_⟩
  exact (silence_stop_exactly_once (-58) 800 0 (-70)
    [((16 : Nat), (-70 : Int)), (33, -70), (900, -70)] 1000
    (by decide) (by decide) (by decide)).1

/-! ## The pre-buffer ring and clip assembly

`startPreBuffering` starts a segment recorder that pushes one encoded chunk
into `preBufferRef` every 250 ms and evicts the oldest once more than 4 are
held; it is never stopped or paused, so it keeps pushing while the main
recorder runs.  The main recorder's `onstop` assembles
`[...preBufferRef.current, ...audioChunksRef.current]` — the ring *as it is
at stop time* — into the blob, then clears both.  Segments are identified
by `Nat` ids; only nonempty `ondataavailable` chunks are modelled (the
source drops `event.data.size === 0`). -/

/-- `ondataavailable` of the pre-buffer recorder: push, then evict the
oldest when more than 4 segments are held. -/
def pushPre (ring : List Nat) (seg : Nat) : List Nat :=
  let r := ring ++ [seg]
  if r.length > 4 then r.tail else r

/-- A chunk arrival while the main recorder is running: either a pre-buffer
segment or a live recorder chunk. -/
inductive UttEvent where
  | pre (seg : Nat)
  | live (seg : Nat)
  deriving DecidableEq, Repr

structure UttState where
  ring : List Nat
  live : List Nat
  deriving DecidableEq, Repr

def uttStep (s : UttState) : UttEvent → UttState
  | UttEvent.pre seg => { s with ring := pushPre s.ring seg }
  | UttEvent.live seg => { s with live := s.live ++ [seg] }

/-- State evolution from speech-start (ring contents `R0` at that moment,
the live recorder freshly started) through the chunk arrivals `evs`. -/
def runUtterance (R0 : List Nat) (evs : List UttEvent) : UttState :=
  evs.foldl uttStep { ring := R0, live := [] }

/-- The main recorder's `onstop`: blob = current ring contents followed by
live chunks; both buffers are cleared afterwards. -/
def assembleClip (s : UttState) : List Nat × UttState :=
  (s.ring ++ s.live, { ring := [], live := [] })

def preSegs : List UttEvent → List Nat
  | [] => []
  | UttEvent.pre seg :: rest => seg :: preSegs rest
  | UttEvent.live _ :: rest => preSegs rest

def liveSegs : List UttEvent → List Nat
  | [] => []
  | UttEvent.pre _ :: rest => liveSegs rest
  | UttEvent.live seg :: rest => seg :: liveSegs rest

/-- The last (at most) 4 elements of a list. -/
def takeLast4 (l : List Nat) : List Nat := (l.reverse.take 4).reverse

theorem takeLast4_of_le {l : List Nat} (h : l.length ≤ 4) : takeLast4 l = l := by
  unfold takeLast4
  rw [List.take_of_length_le (by simpa using h), List.reverse_reverse]

theorem takeLast4_absorb (l rest : List Nat) :
    takeLast4 (takeLast4 l ++ rest) = takeLast4 (l ++ rest) := by
  unfold takeLast4
  rw [List.reverse_append, List.reverse_reverse, List.reverse_append]
  rw [List.take_append_eq_append_take, List.take_append_eq_append_take, List.take_take]
  rw [Nat.min_eq_left (Nat.sub_le 4 _)]

theorem pushPre_length {ring : List Nat} (seg : Nat) (h : ring.length ≤ 4) :
    (pushPre ring seg).length ≤ 4 := by
  unfold pushPre
  dsimp only
  split
  · next hgt => simp at hgt ⊢; omega
  · next hle => simp at hle ⊢; omega

theorem pushPre_eq_takeLast4 (ring : List Nat) (seg : Nat) (h : ring.length ≤ 4) :
    pushPre ring seg = takeLast4 (ring ++ [seg]) := by
  by_cases h4 : ring.length = 4
  · match ring, h4 with
    | [a, b, c, d], _ => rfl
  · have hlt : (ring ++ [seg]).length ≤ 4 := by simp; omega
    rw [takeLast4_of_le hlt]
    unfold pushPre
    rw [if_neg (by omega)]

theorem runUtterance_eq (evs : List UttEvent) :
    ∀ ring live, ring.length ≤ 4 →
    List.foldl uttStep ⟨ring, live⟩ evs
      = ⟨takeLast4 (ring ++ preSegs evs), live ++ liveSegs evs⟩ := by
  induction evs with
  | nil =>
    intro ring live h
    simp [preSegs, liveSegs, takeLast4_of_le h]
  | cons e evs ih =>
    intro ring live h
    cases e with
    | pre seg =>
      have step : List.foldl uttStep ⟨ring, live⟩ (UttEvent.pre seg :: evs)
          = List.foldl uttStep ⟨pushPre ring seg, live⟩ evs := rfl
      rw [step, ih _ _ (pushPre_length seg h), pushPre_eq_takeLast4 ring seg h,
        takeLast4_absorb]
      simp [preSegs, liveSegs]
    | live seg =>
      have step : List.foldl uttStep ⟨ring, live⟩ (UttEvent.live seg :: evs)
          = List.foldl uttStep ⟨ring, live ++ [seg]⟩ evs := rfl
      rw [step, ih _ _ h]
      simp [preSegs, liveSegs]

/-- C2 (counterexample): with ring `[1]` at speech-start and then one
pre-buffer segment `2` and one live chunk `3` arriving during the
recording, the assembled blob is `[1, 2, 3]`, not the claimed
ring-at-speech-start prefix followed by live chunks (`[1, 3]`): the ring
keeps being updated by the still-running pre-buffer recorder until stop. -/
theorem clip_not_ring_at_speech_start :
    (assembleClip (runUtterance [1] [UttEvent.pre 2, UttEvent.live 3])).1 = [1, 2, 3]
    ∧ (assembleClip (runUtterance [1] [UttEvent.pre 2, UttEvent.live 3])).1 ≠ [1] ++ [3] := by
  constructor
  · rfl
  · decide

/-- C2 (amended): the assembled blob equals the pre-buffer ring *as it is
at the moment the recorder stops* — the last (at most) 4 pre-buffer
segments produced before stop, oldest to newest — followed by all live
chunks in arrival order, with nothing dropped or duplicated relative to
those two sequences; both buffers are cleared for the next utterance (the
pre-buffer recorder itself keeps running). -/
theorem clip_assembles_ring_at_stop (R0 : List Nat) (evs : List UttEvent)
    (h : R0.length ≤ 4) :
    (assembleClip (runUtterance R0 evs)).1
        = takeLast4 (R0 ++ preSegs evs) ++ liveSegs evs
    ∧ (assembleClip (runUtterance R0 evs)).2 = ⟨[], []⟩ := by
  unfold runUtterance
  rw [runUtterance_eq evs R0 [] h]
  simp [assembleClip]

/-- Witness for C2 (amended) at the counterexample's trace. -/
theorem clip_assembles_ring_at_stop_witness :
    ([1] : List Nat).length ≤ 4
    ∧ ((assembleClip (runUtterance [1] [UttEvent.pre 2, UttEvent.live 3])).1
          = takeLast4 ([1] ++ preSegs [UttEvent.pre 2, UttEvent.live 3])
              ++ liveSegs [UttEvent.pre 2, UttEvent.live 3]
        ∧ (assembleClip (runUtterance [1] [UttEvent.pre 2, UttEvent.live 3])).2 = ⟨[], []⟩) :=
  ⟨by decide, clip_assembles_ring_at_stop [1] [UttEvent.pre 2, UttEvent.live 3] (by decide)⟩

/-! ## Session lifecycle: `startListening`, `stopListening`, `cleanup`

The session's native resources are modelled by explicit flags: `stream`
(`streamRef.current !== null`), `tracksLive` (the device's media tracks have
not been stopped), `ctx` (the `AudioContext` and its state — `cleanup(true)`
closes it and nulls the ref, modelled as `none`), `analyser`, `timerSet`
(`silenceTimeoutRef.current !== null`), and `acquisitions` counts
`getUserMedia` calls.  `stopListening` and `cleanup` are synchronous in the
source and modelled as single state transformations; `startListening`,
whose body suspends at `await getUserMedia`, is modelled further below with
that suspension point explicit. -/

inductive CtxState where
  | running
  | suspended
  deriving DecidableEq, Repr

structure SessionState where
  isListening : Bool
  isRecording : Bool
  recorderPresent : Bool
  recorderInactive : Bool
  stream : Bool
  tracksLive : Bool
  ctx : Option CtxState
  analyser : Bool
  timerSet : Bool
  acquisitions : Nat
  deriving DecidableEq, Repr

/-- `cleanup(fullCleanup)`: always clears the silence timer and the
recording state; with `fullCleanup` it also closes the audio context, stops
the device tracks, releases the stream and drops the analyser. -/
def cleanup (full : Bool) (s : SessionState) : SessionState :=
  let s := { s with timerSet := false }
  let s := if full then
      { s with ctx := none, tracksLive := false, stream := false, analyser := false }
    else s
  { s with isRecording := false, recorderPresent := false }

/-- `stopListening()`: stop an ongoing recording, leave the listening loop,
suspend (not close) the audio context, and clear any pending silence
timeout.  The device tracks and the stream are not touched. -/
def stopListening (s : SessionState) : SessionState :=
  let s := if s.isRecording && s.recorderPresent && !s.recorderInactive then
      { s with recorderInactive := true }
    else s
  let s := { s with isListening := false }
  let s := match s.ctx with
    | some _ => { s with ctx := some CtxState.suspended }
    | none => s
  if s.timerSet then { s with timerSet := false } else s

/-- A live listening session with an armed silence timer. -/
def listeningSt : SessionState :=
  { isListening := true, isRecording := false, recorderPresent := false, recorderInactive := true,
    stream := true, tracksLive := true, ctx := some CtxState.running, analyser := true,
    timerSet := true, acquisitions := 1 }

/-- C4 (counterexample): from a live listening session, `stopListening()`
clears the armed timer but leaves the device's media tracks live and only
suspends — does not close — the audio context, so device handles remain
open, contradicting the claim. -/
theorem stopListening_leaves_handles_open :
    (stopListening listeningSt).timerSet = false
    ∧ (stopListening listeningSt).tracksLive = true
    ∧ (stopListening listeningSt).ctx = some CtxState.suspended
    ∧ (stopListening listeningSt).ctx ≠ none := by
  refine ⟨rfl, rfl, rfl, by decide⟩

/-- C4 (amended): after `stopListening()` — idempotently, from any state —
zero silence timers remain armed, the listening loop is left, and any active
recorder is stopped; but the device's media tracks are deliberately kept
live and the audio-graph context is only suspended, reserved for reuse by
the next `startListening()`.  Full release of the device handles (tracks
stopped, context closed) happens only through `cleanup(true)`. -/
theorem stopListening_eq (s : SessionState) :
    stopListening s =
      { s with
        recorderInactive := s.recorderInactive || (s.isRecording && s.recorderPresent),
        isListening := false,
        ctx := s.ctx.map (fun _ => CtxState.suspended),
        timerSet := false } := by
  cases hr : s.isRecording <;> cases hp : s.recorderPresent <;> cases hi : s.recorderInactive <;>
    cases hctx : s.ctx <;> cases ht : s.timerSet <;>
      simp [stopListening, hr, hp, hi, hctx, ht]

theorem stopListening_teardown (s : SessionState) :
    (stopListening s).timerSet = false
    ∧ (stopListening s).isListening = false
    ∧ (s.isRecording = true → s.recorderPresent = true →
        (stopListening s).recorderInactive = true)
    ∧ (stopListening s).tracksLive = s.tracksLive
    ∧ (s.ctx ≠ none → (stopListening s).ctx = some CtxState.suspended)
    ∧ (cleanup true s).timerSet = false
    ∧ (cleanup true s).tracksLive = false
    ∧ (cleanup true s).ctx = none := by
  rw [stopListening_eq]
  refine ⟨rfl, rfl, ?_, rfl, ?_, rfl, rfl, rfl⟩
  · intro h1 h2
    simp [h1, h2]
  · intro h
    cases hctx : s.ctx with
    | none => exact absurd hctx h
    | some c => simp

/-- Witness for C4 (amended) at a live listening session with an armed
timer. -/
theorem stopListening_teardown_witness :
    (stopListening listeningSt).timerSet = false
    ∧ (stopListening listeningSt).isListening = false
    ∧ (listeningSt.isRecording = true → listeningSt.recorderPresent = true →
        (stopListening listeningSt).recorderInactive = true)
    ∧ (stopListening listeningSt).tracksLive = listeningSt.tracksLive
    ∧ (listeningSt.ctx ≠ none → (stopListening listeningSt).ctx = some CtxState.suspended)
    ∧ (cleanup true listeningSt).timerSet = false
    ∧ (cleanup true listeningSt).tracksLive = false
    ∧ (cleanup true listeningSt).ctx = none :=
  stopListening_teardown listeningSt

/-! ## `startListening` with its suspension point explicit

`startListening`'s body is a check-then-acquire around `await getUserMedia`:
the synchronous prefix reads `streamRef`/`audioContextRef`/`analyserRef`
(writing nothing), and only the continuation that runs after the device
promise resolves assigns them.  So an execution of overlapping calls is
determined by where each call's check runs relative to the other's
continuation.  `AcqState` refines the session state with acquisition
accounting: `nextId` numbers the streams `getUserMedia` hands out,
`acquisitions` counts `getUserMedia` calls, `ctxCreated` counts constructed
`AudioContext`s, and `leaked` records stream ids overwritten in `streamRef`
while their tracks were never stopped. -/

structure AcqState where
  stream : Option Nat
  ctx : Option CtxState
  analyser : Bool
  isListening : Bool
  nextId : Nat
  acquisitions : Nat
  ctxCreated : Nat
  leaked : List Nat
  deriving DecidableEq, Repr

/-- The synchronous check
`!streamRef.current || !audioContextRef.current || !analyserRef.current`
at the top of `startListening`.  It reads the refs and writes nothing. -/
def acqNeeds (s : AcqState) : Bool :=
  decide (s.stream = none) || decide (s.ctx = none) || !s.analyser

/-- The continuation of the acquire path, run after `await getUserMedia`
resolves: assign the fresh stream into `streamRef` (orphaning — tracks
still live — any stream already there), construct a new `AudioContext` and
analyser, connect them, and set listening. -/
def slCommit (s : AcqState) : AcqState :=
  { s with
    stream := some s.nextId,
    leaked := (match s.stream with | some old => s.leaked ++ [old] | none => s.leaked),
    nextId := s.nextId + 1,
    acquisitions := s.acquisitions + 1,
    ctx := some CtxState.running,
    ctxCreated := s.ctxCreated + 1,
    analyser := true,
    isListening := true }

/-- The reuse path, taken when the check finds every ref present: resume
the context if suspended, reconnect, and set listening. -/
def slReuse (s : AcqState) : AcqState :=
  let s1 := if s.ctx = some CtxState.suspended then { s with ctx := some CtxState.running }
    else s
  { s1 with isListening := true }

/-- One complete, non-overlapped execution of `startListening()`: the check
runs and the chosen path runs to completion before any other call starts. -/
def startListeningRun (s : AcqState) : AcqState :=
  if acqNeeds s then slCommit s else slReuse s

/-- The fresh per-tab state before any listening activation. -/
def acqIdle : AcqState :=
  { stream := none, ctx := none, analyser := false, isListening := false,
    nextId := 0, acquisitions := 0, ctxCreated := 0, leaked := [] }

/-- C7 (counterexample): two `startListening()` calls overlapping at the
`await getUserMedia` suspension point — from a state where the refs are
missing, both synchronous checks run (and pass: the check writes nothing)
before either continuation assigns the refs, so the interleaved execution
is the two continuations committing in order.  From idle this performs two
device acquisitions and constructs two audio contexts, and the first
acquired stream (id 0) is orphaned with its tracks still live — two
sessions' worth of handles, not "exactly one active AudioSession". -/
theorem startListening_overlap_two_sessions :
    acqNeeds acqIdle = true
    ∧ (slCommit (slCommit acqIdle)).acquisitions = 2
    ∧ (slCommit (slCommit acqIdle)).ctxCreated = 2
    ∧ (slCommit (slCommit acqIdle)).leaked = [0]
    ∧ (slCommit (slCommit acqIdle)).stream = some 1 := by
  decide

/-- C7 (amended): two *sequential* `startListening()` calls (the second
beginning after the first has completed) yield exactly one active
AudioSession — the second call is a no-op on the session, reusing (or
resuming) the stream, context and analyser created by the first, with
exactly one device acquisition from idle.  But `startListening` has no
reentrancy guard, so whenever two calls overlap at the `getUserMedia`
await with the refs still missing, both acquire: two `getUserMedia` calls,
two constructed audio contexts, and the first call's stream orphaned in
the overwritten ref with its tracks never stopped. -/
theorem startListening_reuse_or_double (s : AcqState) :
    startListeningRun (startListeningRun s) = startListeningRun s
    ∧ (startListeningRun (startListeningRun acqIdle)).acquisitions = 1
    ∧ (startListeningRun (startListeningRun acqIdle)).stream = some 0
    ∧ (startListeningRun (startListeningRun acqIdle)).ctx = some CtxState.running
    ∧ (startListeningRun (startListeningRun acqIdle)).analyser = true
    ∧ (acqNeeds s = true →
        (slCommit (slCommit s)).acquisitions = s.acquisitions + 2
        ∧ (slCommit (slCommit s)).ctxCreated = s.ctxCreated + 2
        ∧ s.nextId ∈ (slCommit (slCommit s)).leaked) := by
  refine ⟨?_, by decide, by decide, by decide, by decide, ?_⟩
  · by_cases h : acqNeeds s
    · have h1 : startListeningRun s = slCommit s := by
        rw [startListeningRun, if_pos h]
      have h2 : ¬acqNeeds (slCommit s) = true := by
        simp [acqNeeds, slCommit]
      rw [h1, startListeningRun, if_neg h2]
      simp [slReuse, slCommit]
    · cases hst : s.stream with
      | none => exact absurd (by simp [acqNeeds, hst]) h
      | some sid =>
        cases han : s.analyser with
        | false => exact absurd (by simp [acqNeeds, han]) h
        | true =>
          cases hctx : s.ctx with
          | none => exact absurd (by simp [acqNeeds, hctx]) h
          | some c =>
            cases c with
            | running =>
              have h1 : startListeningRun s = { s with isListening := true } := by
                rw [startListeningRun, if_neg h]
                simp [slReuse, hctx]
              have h2 : ¬acqNeeds { s with isListening := true } = true := by
                simp [acqNeeds, hst, han, hctx]
              rw [h1, startListeningRun, if_neg h2]
              simp [slReuse, hctx]
            | suspended =>
              have h1 : startListeningRun s
                  = { s with ctx := some CtxState.running, isListening := true } := by
                rw [startListeningRun, if_neg h]
                simp [slReuse, hctx]
              have h2 : ¬acqNeeds
                  { s with ctx := some CtxState.running, isListening := true } = true := by
                simp [acqNeeds, hst, han]
              rw [h1, startListeningRun, if_neg h2]
              simp [slReuse]
  · intro h
    refine ⟨by simp [slCommit], by simp [slCommit], ?_⟩
    simp [slCommit]

/-- Witness for C7 (amended) at the idle state, where the overlap
hypothesis (both checks pass) holds. -/
theorem startListening_reuse_or_double_witness :
    acqNeeds acqIdle = true
    ∧ (startListeningRun (startListeningRun acqIdle) = startListeningRun acqIdle
      ∧ (startListeningRun (startListeningRun acqIdle)).acquisitions = 1
      ∧ (startListeningRun (startListeningRun acqIdle)).stream = some 0
      ∧ (startListeningRun (startListeningRun acqIdle)).ctx = some CtxState.running
      ∧ (startListeningRun (startListeningRun acqIdle)).analyser = true
      ∧ (acqNeeds acqIdle = true →
          (slCommit (slCommit acqIdle)).acquisitions = acqIdle.acquisitions + 2
          ∧ (slCommit (slCommit acqIdle)).ctxCreated = acqIdle.ctxCreated + 2
          ∧ acqIdle.nextId ∈ (slCommit (slCommit acqIdle)).leaked)) :=
  ⟨by decide, startListening_reuse_or_double acqIdle⟩

/-! ## The page controller `processAudio` and the speech route's rejections

`processAudio` (translation phase) is modelled as a function of the
reentrancy guard (`processingRef.current`), the assembled blob's byte size,
and the speech endpoint's response, to its observable outcome.  The speech
route's quality checks (the revision currently served, the one with the
no-voice / quality / too-short wording) are modelled over the first Whisper
segment's statistics as exact rationals. -/

structure SttResponse where
  ok : Bool
  error : Option String
  details : Option String
  text : String
  deriving DecidableEq, Repr

inductive ProcOutcome where
  /-- the reentrancy guard returned early: previous clip still processing -/
  | droppedBusy
  /-- the `audioBlob.size < 15000` guard returned early -/
  | droppedShort
  /-- a matched quality-failure string: logged and returned, no error set -/
  | rejectedSilently
  /-- the `catch` block ran `setError` with this user-visible message -/
  | errorSurfaced (msg : String)
  /-- the transcript was accepted and the pipeline continued -/
  | completed (text : String)
  deriving DecidableEq, Repr

/-- JavaScript `a || b` on a possibly-absent string (empty string is falsy). -/
def jsOr (a : Option String) (d : String) : String :=
  match a with
  | some s => if s = "" then d else s
  | none => d

/-- `processAudio` (translation phase) up to its observable outcome.  The
speech fetch happens after both early-return guards, so every outcome other
than the two dropped ones implies the STT call was made. -/
def processAudio (busy : Bool) (blobSize : Nat) (resp : SttResponse) : ProcOutcome :=
  if busy then ProcOutcome.droppedBusy
  else if blobSize < 15000 then ProcOutcome.droppedShort
  else if resp.ok then ProcOutcome.completed resp.text
  else if resp.error = some "Low quality speech detected"
      ∨ resp.error = some "No speech detected"
      ∨ resp.error = some "Transcription too short" then
    ProcOutcome.rejectedSilently
  else ProcOutcome.errorSurfaced (jsOr resp.details (jsOr resp.error "Failed to transcribe audio"))

/-- Whether the utterance reached the speech-to-text call. -/
def sttCalled : ProcOutcome → Bool
  | ProcOutcome.droppedBusy => false
  | ProcOutcome.droppedShort => false
  | _ => true

structure WhisperSegment where
  no_speech_prob : Rat
  avg_logprob : Rat
  compression_ratio : Rat
  deriving DecidableEq, Repr

/-- The speech route's post-transcription handling: the no-segments check,
the three quality checks on the first segment, and the too-short check on
the trimmed transcript.  For the quality rejection the route puts the
structured `qualityChecks` object in `details`; a JavaScript `Error`
constructed from that object carries the message `"[object Object]"`. -/
def speechPOST (segments : List WhisperSegment) (text : String) : SttResponse :=
  match segments with
  | [] =>
    { ok := false, details := none, text := "",
      error := some "No voice detected. Please speak clearly into your microphone." }
  | seg :: _ =>
    if seg.no_speech_prob > 1/2 ∨ seg.avg_logprob < -1
        ∨ seg.compression_ratio < 0 ∨ seg.compression_ratio > 10 then
      { ok := false, details := some "[object Object]", text := "",
        error := some "Speech quality is too low. Please speak louder and more clearly." }
    else
      let cleanText := jsTrim text
      if cleanText.length < 2 then
        { ok := false, details := none, text := "",
          error := some "Speech is too short. Please speak a complete sentence." }
      else { ok := true, error := none, details := none, text := cleanText }

/-- A segment passing every quality check. -/
def okSegment : WhisperSegment :=
  { no_speech_prob := 0, avg_logprob := 0, compression_ratio := 1 }

theorem speechPOST_okSegment_short :
    speechPOST [okSegment] "a"
      = { ok := false, details := none, text := "",
          error := some "Speech is too short. Please speak a complete sentence." } := by
  simp only [speechPOST]
  rw [if_neg (by norm_num [okSegment])]
  decide

theorem speechPOST_okSegment_hello :
    speechPOST [okSegment] "hello"
      = { ok := true, error := none, details := none, text := "hello" } := by
  simp only [speechPOST]
  rw [if_neg (by norm_num [okSegment])]
  decide

/-- C5 (code bug): the speech route's actual quality rejections — no voice
detected (empty segment list) and speech too short shown here — do not match
any of the three strings `processAudio`'s silent-ignore branch compares
against, so the rejection is thrown and surfaced through `setError` as a
user-visible error instead of being silently dropped. -/
theorem quality_rejection_surfaces_error :
    processAudio false 20000 (speechPOST [] "")
        = ProcOutcome.errorSurfaced "No voice detected. Please speak clearly into your microphone."
    ∧ processAudio false 20000 (speechPOST [okSegment] "a")
        = ProcOutcome.errorSurfaced "Speech is too short. Please speak a complete sentence."
    ∧ processAudio false 20000 (speechPOST [okSegment] "a") ≠ ProcOutcome.rejectedSilently
    ∧ processAudio false 20000 (speechPOST [] "") ≠ ProcOutcome.rejectedSilently := by
  rw [speechPOST_okSegment_short]
  refine ⟨by decide, by decide, by decide, by decide⟩

/-- C6 (counterexample): a finished clip whose live chunks total 14 000
bytes (below the 15 000-byte threshold) but whose pre-buffer prefix adds
2 000 bytes is NOT discarded: the guard tests the whole assembled blob's
size (16 000), so the clip reaches the speech-to-text call. -/
theorem small_live_clip_still_processed :
    List.sum [14000] < 15000
    ∧ sttCalled (processAudio false (List.sum [2000] + List.sum [14000])
        (speechPOST [okSegment] "hello")) = true := by
  rw [speechPOST_okSegment_hello]
  refine ⟨by decide, by decide⟩

/-- C6 (amended): a finished clip whose *assembled blob* (pre-buffer prefix
plus live chunks) totals fewer than 15 000 bytes never reaches the
speech-to-text call — it is discarded silently (either by the size guard or,
before that, by the reentrancy guard). -/
theorem small_blob_never_reaches_stt (busy : Bool) (preSize liveSize : Nat)
    (resp : SttResponse) (h : preSize + liveSize < 15000) :
    sttCalled (processAudio busy (preSize + liveSize) resp) = false := by
  cases busy with
  | true => rfl
  | false =>
    unfold processAudio
    rw [if_neg (by simp), if_pos h]
    rfl

/-- Witness for C6 (amended): a 10 000-byte blob is discarded. -/
theorem small_blob_never_reaches_stt_witness :
    2000 + 8000 < 15000
    ∧ sttCalled (processAudio false (2000 + 8000) (speechPOST [okSegment] "hello")) = false :=
  ⟨by decide, small_blob_never_reaches_stt false 2000 8000 (speechPOST [okSegment] "hello")
      (by decide)⟩

/-- C9 (counterexample): a large, good clip that completes while the
previous clip's pipeline is still in flight (`processingRef` is held across
the awaited translation stream) is dropped by the guard — its
speech-to-text call is never made. -/
theorem clip_during_translation_dropped :
    processAudio true 20000 (speechPOST [okSegment] "hello") = ProcOutcome.droppedBusy
    ∧ sttCalled (processAudio true 20000 (speechPOST [okSegment] "hello")) = false := by
  refine ⟨rfl, rfl⟩

/-- C9 (amended): the recording pipeline may produce a clip while a
previous translation is still streaming, but processing is serialized by
the reentrancy guard: while the previous clip's pipeline (STT call plus
awaited translation stream) is in flight the new clip is silently dropped,
and a clip is processed — its STT call made — exactly when no previous
processing is in flight (given it passes the size guard). -/
theorem processing_serialized (blobSize : Nat) (resp : SttResponse)
    (h : 15000 ≤ blobSize) :
    processAudio true blobSize resp = ProcOutcome.droppedBusy
    ∧ sttCalled (processAudio true blobSize resp) = false
    ∧ sttCalled (processAudio false blobSize resp) = true := by
  refine ⟨rfl, rfl, ?_⟩
  unfold processAudio
  rw [if_neg (by simp), if_neg (by omega)]
  by_cases hok : resp.ok
  · rw [if_pos hok]
    rfl
  · rw [if_neg hok]
    split <;> rfl

/-- Witness for C9 (amended) at a 20 000-byte clip with a good transcript. -/
theorem processing_serialized_witness :
    15000 ≤ 20000
    ∧ (processAudio true 20000 (speechPOST [okSegment] "hi there") = ProcOutcome.droppedBusy
      ∧ sttCalled (processAudio true 20000 (speechPOST [okSegment] "hi there")) = false
      ∧ sttCalled (processAudio false 20000 (speechPOST [okSegment] "hi there")) = true) :=
  ⟨by decide, processing_serialized 20000 (speechPOST [okSegment] "hi there") (by decide)⟩

end VoiceTranslator
